import Mathlib

/-!
Verification development for the Pose-Realtime capture/record/playback core.

The embedding follows `src/unnamed/part_003` (classes `PlaybackController` and
`AppLoop`) and the shared data model in `src/src/pose/types.ts`.  JavaScript
`number` time values are modelled as `ℚ`; the cooperative single-threaded
event loop is modelled as a step function over explicit events (a
`requestAnimationFrame` callback invocation is a `tick` event carrying the
`performance.now()` value, and the resolution or rejection of an in-flight
`estimate` promise is a completion event).  Callback invocations
(`onFrame`, `onTimeUpdate`, `onEnd`, `onRecordingUpdate`) and `console.error`
are recorded as explicit outputs / ghost logs so that theorems can speak
about them.  `rafId` handles are not modelled: cancelling a scheduled tick is
represented by the guards `isRunning` / `isPlaying` that the source checks at
the top of each loop body.
-/

/-- Model of `PoseMode` from `src/src/pose/types.ts` (`'holistic' | 'movenet'`). -/
inductive PoseMode where
  | holistic
  | movenet
deriving DecidableEq, Repr

/-- Model of `Keypoint` from `src/src/pose/types.ts`. -/
structure Keypoint where
  x : ℚ
  y : ℚ
  z : Option ℚ := none
  score : Option ℚ := none
  name : Option String := none
deriving DecidableEq, Repr

/-- Model of `WorldKeypoint` from `src/src/pose/types.ts`. -/
structure WorldKeypoint where
  x : ℚ
  y : ℚ
  z : ℚ
  score : Option ℚ := none
  name : Option String := none
deriving DecidableEq, Repr

/-- Model of `Person` from `src/src/pose/types.ts`. -/
structure Person where
  id : String
  keypoints : List Keypoint
  worldKeypoints : Option (List WorldKeypoint) := none
  score : Option ℚ := none
deriving DecidableEq, Repr

/-- Model of `StandardPoseFrame` from `src/src/pose/types.ts`. -/
structure StandardPoseFrame where
  t_ms : ℚ
  mode : PoseMode
  people : List Person
deriving DecidableEq, Repr

/-- The static data of a `PoseAdapter` (`src/src/pose/types.ts`).  The
asynchronous `estimate` capability itself is modelled by completion events;
the record identifies the adapter instance installed via `setAdapter`. -/
structure PoseAdapter where
  name : String
  mode : PoseMode
  supportsMultiplePeople : Bool
  maxPeople : Nat
deriving DecidableEq, Repr

/-- A callback invocation made by `PlaybackController`:
`onFrame(frame, t)`, `onTimeUpdate(t)` or `onEnd()`. -/
inductive PBEvent where
  | frame (f : Option StandardPoseFrame) (t : ℚ)
  | time (t : ℚ)
  | ended
deriving DecidableEq, Repr

/-- The mutable fields of `PlaybackController` (`rafId` omitted, see the
file comment). -/
structure PlaybackState where
  frames : List StandardPoseFrame := []
  currentTime : ℚ := 0
  duration : ℚ := 0
  isPlaying : Bool := false
  lastTick : ℚ := 0
deriving DecidableEq, Repr

namespace PlaybackController

/-- The comparator `(a, b) => a.t_ms - b.t_ms` passed to `Array.sort`:
ascending order on `t_ms`. -/
def byTms (a b : StandardPoseFrame) : Prop := a.t_ms ≤ b.t_ms

instance : DecidableRel byTms :=
  fun a b => inferInstanceAs (Decidable (a.t_ms ≤ b.t_ms))

instance : IsTotal StandardPoseFrame byTms := ⟨fun a b => le_total a.t_ms b.t_ms⟩

instance : IsTrans StandardPoseFrame byTms := ⟨fun _ _ _ h1 h2 => le_trans h1 h2⟩

/-- The `while (low <= high)` loop of `getFrameAt`.  `mid` is
`Math.floor((low + high) / 2)`; inside the loop `low` and `high` are
non-negative, so Lean's Euclidean `Int` division agrees with `Math.floor`.
Out-of-range reads (which never occur in calls reachable from `getFrameAt`)
default to `0`.  The loop is given through a `fuel` parameter; since
`high - low` strictly shrinks each iteration, any
`fuel ≥ (high + 1 - low).toNat` — `getFrameIdx` passes the list length —
makes it the exact `while` loop (proved in `bsearchGo_spec`). -/
def bsearchGo (ts : List ℚ) (t : ℚ) : ℕ → Int → Int → Int → Int
  | 0, _, _, idx => idx
  | fuel + 1, low, high, idx =>
    if low ≤ high then
      if ts.getD ((low + high) / 2).toNat 0 ≤ t then
        bsearchGo ts t fuel ((low + high) / 2 + 1) high ((low + high) / 2)
      else
        bsearchGo ts t fuel low ((low + high) / 2 - 1) idx
    else idx

theorem bsearchGo_succ (ts : List ℚ) (t : ℚ) (fuel : ℕ) (low high idx : Int) :
    bsearchGo ts t (fuel + 1) low high idx =
      if low ≤ high then
        if ts.getD ((low + high) / 2).toNat 0 ≤ t then
          bsearchGo ts t fuel ((low + high) / 2 + 1) high ((low + high) / 2)
        else
          bsearchGo ts t fuel low ((low + high) / 2 - 1) idx
      else idx := rfl

/-- The index computed by `getFrameAt`'s binary search (`-1` if no frame has
`t_ms ≤ t`). -/
def getFrameIdx (frames : List StandardPoseFrame) (t : ℚ) : Int :=
  bsearchGo (frames.map StandardPoseFrame.t_ms) t frames.length
    0 ((frames.length : Int) - 1) (-1)

/-- Model of `PlaybackController.getFrameAt`: `return idx >= 0 ? this.frames[idx] : null`. -/
def getFrameAt (frames : List StandardPoseFrame) (t : ℚ) : Option StandardPoseFrame :=
  let idx := getFrameIdx frames t
  if 0 ≤ idx then frames.get? idx.toNat else none

/-- Model of `PlaybackController.seek(t)`: clamp to `[0, duration]`, look up, fire
`onFrame` and `onTimeUpdate`. -/
def seek (s : PlaybackState) (t : ℚ) : PlaybackState × List PBEvent :=
  let ct := max 0 (min t s.duration)
  let f := getFrameAt s.frames ct
  ({ s with currentTime := ct }, [.frame f ct, .time ct])

/-- Model of `PlaybackController.load(frames)`: sort ascending by `t_ms`, set
`duration` to the last frame's `t_ms` (`0` if empty), reset `currentTime`,
and `seek(0)`.  `Array.sort` is modelled by the (stable) insertion sort. -/
def load (s : PlaybackState) (frames : List StandardPoseFrame) :
    PlaybackState × List PBEvent :=
  let sorted := frames.insertionSort byTms
  let dur := match sorted.getLast? with
    | some f => f.t_ms
    | none => 0
  seek { s with frames := sorted, duration := dur, currentTime := 0 } 0

/-- Model of `PlaybackController.play()`.  The returned `Bool` records whether the
advancing driver was (re)started, i.e. whether `this.loop()` was invoked. -/
def play (s : PlaybackState) (now : ℚ) : PlaybackState × List PBEvent × Bool :=
  if s.isPlaying then (s, [], false)
  else
    let (s1, evs) := if s.duration ≤ s.currentTime then seek s 0 else (s, [])
    ({ s1 with isPlaying := true, lastTick := now }, evs, true)

/-- Model of `PlaybackController.pause()`. -/
def pause (s : PlaybackState) : PlaybackState :=
  { s with isPlaying := false }

/-- One invocation of the private `loop` arrow function at wall-clock time
`now`.  The returned `Bool` is whether `requestAnimationFrame(this.loop)`
was called again. -/
def loop (s : PlaybackState) (now : ℚ) : PlaybackState × List PBEvent × Bool :=
  if s.isPlaying = false then (s, [], false)
  else
    let dt := now - s.lastTick
    let t1 := s.currentTime + dt
    if s.duration ≤ t1 then
      let s1 := pause { s with lastTick := now, currentTime := s.duration }
      let f := getFrameAt s1.frames s1.currentTime
      (s1, [.ended, .frame f s1.currentTime, .time s1.currentTime], s1.isPlaying)
    else
      let s1 := { s with lastTick := now, currentTime := t1 }
      let f := getFrameAt s1.frames s1.currentTime
      (s1, [.frame f s1.currentTime, .time s1.currentTime], s1.isPlaying)

end PlaybackController

namespace AppLoop

/-- Model of `RECORD_INTERVAL_MS = 1000 / 24` (the fixed 24 fps recording grid). -/
def RECORD_INTERVAL_MS : ℚ := 1000 / 24

/-- Model of `AppLoop.createEmptyFrame(t)`: empty-people frame, `mode` taken from the
installed adapter (default `'holistic'`). -/
def createEmptyFrame (adapter : Option PoseAdapter) (t : ℚ) : StandardPoseFrame :=
  { t_ms := t
    mode := match adapter with
      | some a => a.mode
      | none => .holistic
    people := [] }

/-- The sample-and-hold frame stored at one grid tick: a shallow copy of the
latest frame with `t_ms` overwritten to the tick deadline, or an empty frame
if no estimation has completed yet. -/
def frameToStore (latest : Option StandardPoseFrame) (adapter : Option PoseAdapter)
    (tickTime : ℚ) : StandardPoseFrame :=
  match latest with
  | some f => { f with t_ms := tickTime }
  | none => createEmptyFrame adapter tickTime

/-- The `while (elapsed >= this.nextRecordTick)` catch-up loop of
`AppLoop.loop`'s recording section. -/
def catchUp (latest : Option StandardPoseFrame) (adapter : Option PoseAdapter)
    (elapsed : ℚ) (nt : ℚ) (acc : List StandardPoseFrame) :
    List StandardPoseFrame × ℚ :=
  if _h : nt ≤ elapsed then
    catchUp latest adapter elapsed (nt + RECORD_INTERVAL_MS)
      (acc ++ [frameToStore latest adapter nt])
  else (acc, nt)
termination_by (⌊(elapsed - nt) / RECORD_INTERVAL_MS⌋ + 1).toNat
decreasing_by
  have hI : (0:ℚ) < RECORD_INTERVAL_MS := by norm_num [RECORD_INTERVAL_MS]
  have hd : 0 ≤ (elapsed - nt) / RECORD_INTERVAL_MS :=
    div_nonneg (by linarith) hI.le
  have h1 : elapsed - (nt + RECORD_INTERVAL_MS) = elapsed - nt - RECORD_INTERVAL_MS := by
    ring
  have h2 : (elapsed - nt - RECORD_INTERVAL_MS) / RECORD_INTERVAL_MS
      = (elapsed - nt) / RECORD_INTERVAL_MS - 1 := by
    rw [sub_div, div_self hI.ne']
  have h4 : 0 ≤ ⌊(elapsed - nt) / RECORD_INTERVAL_MS⌋ := Int.floor_nonneg.mpr hd
  rw [h1, h2, Int.floor_sub_one]
  omega

/-- The mutable fields of `AppLoop`, plus ghost instrumentation for the
asynchronous protocol: `outstanding` counts in-flight `estimate` calls,
`firedFrames` logs `onFrame` invocations, `recordingUpdates` logs
`onRecordingUpdate` invocations and `errorsLogged` counts `console.error`
calls.  `videoSet` records whether `setComponents` installed a video element. -/
structure AppLoopState where
  adapter : Option PoseAdapter := none
  videoSet : Bool := false
  isRunning : Bool := false
  recording : Bool := false
  recordingStartTime : ℚ := 0
  recordedFrames : List StandardPoseFrame := []
  nextRecordTick : ℚ := 0
  latestFrame : Option StandardPoseFrame := none
  isInferring : Bool := false
  outstanding : Nat := 0
  firedFrames : List StandardPoseFrame := []
  recordingUpdates : List (ℚ × Nat) := []
  errorsLogged : Nat := 0
deriving DecidableEq, Repr

/-- Section "1. Inference" of `AppLoop.loop`: issue an estimation call iff an
adapter and a ready video are present and no call is in flight (`videoReady`
is `this.video.readyState >= 2`). -/
def inferStep (s : AppLoopState) (videoReady : Bool) : AppLoopState :=
  if s.adapter.isSome && s.videoSet && videoReady && !s.isInferring then
    { s with isInferring := true, outstanding := s.outstanding + 1 }
  else s

/-- Section "2. Recording (Fixed Tick)" of `AppLoop.loop`: run the catch-up
loop and notify `onRecordingUpdate`. -/
def recordStep (s : AppLoopState) (now : ℚ) : AppLoopState :=
  if s.recording then
    let elapsed := now - s.recordingStartTime
    let r := catchUp s.latestFrame s.adapter elapsed s.nextRecordTick s.recordedFrames
    { s with recordedFrames := r.1, nextRecordTick := r.2,
             recordingUpdates := s.recordingUpdates ++ [(elapsed, r.1.length)] }
  else s

/-- One invocation of the private `loop` arrow function of `AppLoop` at
wall-clock time `now`. -/
def loop (s : AppLoopState) (now : ℚ) (videoReady : Bool) : AppLoopState :=
  if s.isRunning = false then s
  else recordStep (inferStep s videoReady) now

/-- Model of `AppLoop.startRecording()` at wall-clock instant `now`. -/
def startRecording (s : AppLoopState) (now : ℚ) : AppLoopState :=
  { s with recording := true, recordedFrames := [], recordingStartTime := now,
           nextRecordTick := 0 }

/-- Model of `AppLoop.stopRecording()`: returns the copied buffer and the new state. -/
def stopRecording (s : AppLoopState) : List StandardPoseFrame × AppLoopState :=
  (s.recordedFrames, { s with recording := false, recordedFrames := [] })

/-- Model of `AppLoop.setAdapter(adapter)`: installs the adapter and clears the cached
latest frame. -/
def setAdapter (s : AppLoopState) (a : PoseAdapter) : AppLoopState :=
  { s with adapter := some a, latestFrame := none }

/-- Model of `AppLoop.setComponents(video)`. -/
def setComponents (s : AppLoopState) : AppLoopState :=
  { s with videoSet := true }

/-- Model of `AppLoop.start()`. -/
def start (s : AppLoopState) : AppLoopState :=
  if s.isRunning then s else { s with isRunning := true }

/-- Model of `AppLoop.stop()`. -/
def stop (s : AppLoopState) : AppLoopState :=
  { s with isRunning := false }

/-- The `.then` continuation of `this.adapter.estimate(...)`: cache the
result, clear the in-flight flag, notify `onFrame`. -/
def completeOk (s : AppLoopState) (f : StandardPoseFrame) : AppLoopState :=
  { s with latestFrame := some f, isInferring := false,
           outstanding := s.outstanding - 1, firedFrames := s.firedFrames ++ [f] }

/-- The `.catch` continuation of `this.adapter.estimate(...)`: log the error
and clear the in-flight flag; nothing else changes. -/
def completeErr (s : AppLoopState) : AppLoopState :=
  { s with isInferring := false, outstanding := s.outstanding - 1,
           errorsLogged := s.errorsLogged + 1 }

/-- The events that can reach an `AppLoop` instance: a scheduled tick firing,
an in-flight estimation settling (success or failure), and the public method
calls. -/
inductive ALEvent where
  | tick (now : ℚ) (videoReady : Bool)
  | completeOk (f : StandardPoseFrame)
  | completeErr
  | startRecording (now : ℚ)
  | stopRecording
  | setAdapter (a : PoseAdapter)
  | setComponents
  | start
  | stop
deriving DecidableEq, Repr

/-- The single-threaded event-loop step. -/
def step (s : AppLoopState) : ALEvent → AppLoopState
  | .tick now ready => loop s now ready
  | .completeOk f => completeOk s f
  | .completeErr => completeErr s
  | .startRecording now => startRecording s now
  | .stopRecording => (stopRecording s).2
  | .setAdapter a => setAdapter s a
  | .setComponents => setComponents s
  | .start => start s
  | .stop => stop s

/-- Run a sequence of events. -/
def run (s : AppLoopState) (es : List ALEvent) : AppLoopState :=
  es.foldl step s

/-- An event is enabled when it can actually occur: a completion requires an
estimation call to be in flight.  All other events are always possible. -/
def enabled (s : AppLoopState) : ALEvent → Bool
  | .completeOk _ => decide (1 ≤ s.outstanding)
  | .completeErr => decide (1 ≤ s.outstanding)
  | _ => true

/-- Every event of the trace is enabled in the state it fires from. -/
def traceEnabled : AppLoopState → List ALEvent → Bool
  | _, [] => true
  | s, e :: es => enabled s e && traceEnabled (step s e) es

/-- The state of a freshly constructed `AppLoop`. -/
def initState : AppLoopState := {}

end AppLoop

namespace PlaybackController

theorem bsearchGo_spec (ts : List ℚ) (t : ℚ) (hs : ts.Sorted (· ≤ ·)) :
    ∀ (n : ℕ) (low high idx : Int),
      (high + 1 - low).toNat ≤ n →
      0 ≤ low → low ≤ high + 1 → high ≤ (ts.length : Int) - 1 →
      idx = low - 1 →
      (∀ i : ℕ, (i : Int) < low → ∀ h : i < ts.length, ts.get ⟨i, h⟩ ≤ t) →
      (∀ i : ℕ, high < (i : Int) → ∀ h : i < ts.length, t < ts.get ⟨i, h⟩) →
      (bsearchGo ts t n low high idx = -1 ∧
        ∀ i : ℕ, ∀ h : i < ts.length, t < ts.get ⟨i, h⟩) ∨
      (∃ j : ℕ, ∃ h : j < ts.length,
        bsearchGo ts t n low high idx = (j : Int) ∧
        ts.get ⟨j, h⟩ ≤ t ∧
        ∀ i : ℕ, ∀ hi : i < ts.length, ts.get ⟨i, hi⟩ ≤ t → i ≤ j) := by
  have exit : ∀ (low high idx : Int), ¬ low ≤ high →
      0 ≤ low → low ≤ high + 1 → high ≤ (ts.length : Int) - 1 →
      idx = low - 1 →
      (∀ i : ℕ, (i : Int) < low → ∀ h : i < ts.length, ts.get ⟨i, h⟩ ≤ t) →
      (∀ i : ℕ, high < (i : Int) → ∀ h : i < ts.length, t < ts.get ⟨i, h⟩) →
      (idx = -1 ∧ ∀ i : ℕ, ∀ h : i < ts.length, t < ts.get ⟨i, h⟩) ∨
      (∃ j : ℕ, ∃ h : j < ts.length, idx = (j : Int) ∧ ts.get ⟨j, h⟩ ≤ t ∧
        ∀ i : ℕ, ∀ hi : i < ts.length, ts.get ⟨i, hi⟩ ≤ t → i ≤ j) := by
    intro low high idx hnle h0 hle hhigh hidx hlowinv hhighinv
    by_cases hneg : high < 0
    · left
      refine ⟨by omega, fun i h => hhighinv i (by omega) h⟩
    · right
      push_neg at hneg
      have hjlt : high.toNat < ts.length := by omega
      refine ⟨high.toNat, hjlt, by omega, hlowinv high.toNat (by omega) hjlt, ?_⟩
      intro i hi hle2
      by_contra hgt
      exact absurd hle2 (not_le.mpr (hhighinv i (by omega) hi))
  intro n
  induction n with
  | zero =>
    intro low high idx hn h0 hle hhigh hidx hlowinv hhighinv
    have hnle : ¬ low ≤ high := by omega
    exact exit low high idx hnle h0 hle hhigh hidx hlowinv hhighinv
  | succ n ih =>
    intro low high idx hn h0 hle hhigh hidx hlowinv hhighinv
    by_cases hlh : low ≤ high
    · rw [bsearchGo_succ, if_pos hlh]
      have hm1 : low ≤ (low + high) / 2 := by omega
      have hm2 : (low + high) / 2 ≤ high := by omega
      have hmlt : ((low + high) / 2).toNat < ts.length := by omega
      have hgetD : ts.getD ((low + high) / 2).toNat 0
          = ts.get ⟨((low + high) / 2).toNat, hmlt⟩ := by
        rw [List.getD_eq_get?, List.get?_eq_get hmlt]
        rfl
      rw [hgetD]
      by_cases hcmp : ts.get ⟨((low + high) / 2).toNat, hmlt⟩ ≤ t
      · rw [if_pos hcmp]
        refine ih ((low + high) / 2 + 1) high ((low + high) / 2)
          (by omega) (by omega) (by omega) hhigh (by omega) ?_ hhighinv
        intro i hilt h
        rcases Nat.lt_or_ge i ((low + high) / 2).toNat with hi | hi
        · exact le_trans
            (List.pairwise_iff_get.mp hs ⟨i, h⟩ ⟨((low + high) / 2).toNat, hmlt⟩ hi)
            hcmp
        · have : i = ((low + high) / 2).toNat := by omega
          subst this
          exact hcmp
      · rw [if_neg hcmp]
        refine ih low ((low + high) / 2 - 1) idx
          (by omega) h0 (by omega) (by omega) hidx hlowinv ?_
        intro i hilt h
        rcases Nat.lt_or_ge ((low + high) / 2).toNat i with hi | hi
        · exact lt_of_lt_of_le (not_le.mp hcmp)
            (List.pairwise_iff_get.mp hs ⟨((low + high) / 2).toNat, hmlt⟩ ⟨i, h⟩ hi)
        · have : i = ((low + high) / 2).toNat := by omega
          subst this
          exact not_le.mp hcmp
    · rw [bsearchGo_succ, if_neg hlh]
      exact exit low high idx hlh h0 hle hhigh hidx hlowinv hhighinv

/-- Full characterization of `getFrameAt` on a sorted frame list: either no
frame has `t_ms ≤ t` and the lookup yields `none` with index `-1`, or the
lookup yields the frame at the greatest index whose `t_ms ≤ t`. -/
theorem getFrameAt_spec (frames : List StandardPoseFrame) (t : ℚ)
    (hs : frames.Sorted byTms) :
    (getFrameIdx frames t = -1 ∧ getFrameAt frames t = none ∧
       ∀ i : ℕ, ∀ h : i < frames.length, t < (frames.get ⟨i, h⟩).t_ms) ∨
    (∃ j : ℕ, ∃ h : j < frames.length,
       getFrameIdx frames t = (j : Int) ∧
       getFrameAt frames t = some (frames.get ⟨j, h⟩) ∧
       (frames.get ⟨j, h⟩).t_ms ≤ t ∧
       ∀ i : ℕ, ∀ hi : i < frames.length, (frames.get ⟨i, hi⟩).t_ms ≤ t → i ≤ j) := by
  have hts : (frames.map StandardPoseFrame.t_ms).Sorted (· ≤ ·) :=
    List.Pairwise.map _ (fun _ _ h => h) hs
  have hlen : (frames.map StandardPoseFrame.t_ms).length = frames.length :=
    List.length_map _ _
  rcases bsearchGo_spec (frames.map StandardPoseFrame.t_ms) t hts
      frames.length 0 ((frames.length : Int) - 1) (-1)
      (by omega) (by omega) (by omega) (by omega) (by omega)
      (fun i hi _ => absurd hi (by omega))
      (fun i hi h => absurd hi (by rw [hlen] at h; omega))
    with ⟨hr, hall⟩ | ⟨j, hj, hr, hle2, hmax⟩
  · left
    have hidx : getFrameIdx frames t = -1 := hr
    refine ⟨hidx, by simp [getFrameAt, hidx], ?_⟩
    intro i h
    have h' : i < (frames.map StandardPoseFrame.t_ms).length := by rw [hlen]; exact h
    have := hall i h'
    simpa [List.get_map] using this
  · right
    have hjf : j < frames.length := by rw [hlen] at hj; exact hj
    have hidx : getFrameIdx frames t = (j : Int) := hr
    refine ⟨j, hjf, hidx, ?_, ?_, ?_⟩
    · have hpos : (0 : Int) ≤ getFrameIdx frames t := by rw [hidx]; omega
      have htn : (getFrameIdx frames t).toNat = j := by rw [hidx]; omega
      simp only [getFrameAt, if_pos hpos, htn]
      exact List.get?_eq_get hjf
    · have := hle2
      simpa [List.get_map] using this
    · intro i hi hle3
      refine hmax i (by rw [hlen]; exact hi) ?_
      simpa [List.get_map] using hle3

end PlaybackController

namespace AppLoop

theorem interval_pos : (0 : ℚ) < RECORD_INTERVAL_MS := by
  norm_num [RECORD_INTERVAL_MS]

theorem frameToStore_t_ms (latest : Option StandardPoseFrame)
    (adapter : Option PoseAdapter) (x : ℚ) :
    (frameToStore latest adapter x).t_ms = x := by
  cases latest <;> rfl

theorem catchUp_eq (latest : Option StandardPoseFrame) (adapter : Option PoseAdapter)
    (elapsed nt : ℚ) (acc : List StandardPoseFrame) :
    catchUp latest adapter elapsed nt acc =
      if nt ≤ elapsed then
        catchUp latest adapter elapsed (nt + RECORD_INTERVAL_MS)
          (acc ++ [frameToStore latest adapter nt])
      else (acc, nt) := by
  rw [catchUp]
  simp only [dite_eq_ite]

/-- The number of iterations the catch-up loop performs from deadline `nt`
with elapsed time `elapsed`. -/
def emitCount (elapsed nt : ℚ) : ℕ :=
  if elapsed < nt then 0 else (⌊(elapsed - nt) / RECORD_INTERVAL_MS⌋ + 1).toNat

theorem emitCount_pos (elapsed nt : ℚ) (h : nt ≤ elapsed) :
    1 ≤ emitCount elapsed nt := by
  have hfl : 0 ≤ ⌊(elapsed - nt) / RECORD_INTERVAL_MS⌋ :=
    Int.floor_nonneg.mpr (div_nonneg (by linarith) interval_pos.le)
  rw [emitCount, if_neg (not_lt.mpr h)]
  omega

theorem emitCount_succ (elapsed nt : ℚ) (h : nt ≤ elapsed) :
    emitCount elapsed nt = emitCount elapsed (nt + RECORD_INTERVAL_MS) + 1 := by
  have hI := interval_pos
  have hd : (0 : ℚ) ≤ elapsed - nt := by linarith
  have hdiv : (elapsed - (nt + RECORD_INTERVAL_MS)) / RECORD_INTERVAL_MS
      = (elapsed - nt) / RECORD_INTERVAL_MS - 1 := by
    rw [show elapsed - (nt + RECORD_INTERVAL_MS)
          = elapsed - nt - RECORD_INTERVAL_MS by ring,
        sub_div, div_self hI.ne']
  by_cases hc : elapsed < nt + RECORD_INTERVAL_MS
  · have hlt : (elapsed - nt) / RECORD_INTERVAL_MS < 1 :=
      (div_lt_one hI).mpr (by linarith)
    have hge : 0 ≤ (elapsed - nt) / RECORD_INTERVAL_MS := div_nonneg hd hI.le
    have h0 : ⌊(elapsed - nt) / RECORD_INTERVAL_MS⌋ = 0 := by
      rw [Int.floor_eq_zero_iff]
      exact ⟨hge, hlt⟩
    simp only [emitCount, if_neg (not_lt.mpr h), if_pos hc, h0]
    rfl
  · push_neg at hc
    have hfl : 0 ≤ ⌊(elapsed - nt) / RECORD_INTERVAL_MS⌋ :=
      Int.floor_nonneg.mpr (div_nonneg hd hI.le)
    simp only [emitCount, if_neg (not_lt.mpr h), if_neg (not_lt.mpr hc),
        hdiv, Int.floor_sub_one]
    omega

/-- Closed form of the catch-up loop: it appends exactly
`emitCount elapsed nt` sample-and-hold frames, stamped with the consecutive
grid deadlines starting at `nt`, and advances the deadline accordingly. -/
theorem catchUp_closed (n : ℕ) :
    ∀ (latest : Option StandardPoseFrame) (adapter : Option PoseAdapter)
      (elapsed nt : ℚ) (acc : List StandardPoseFrame),
      emitCount elapsed nt = n →
      catchUp latest adapter elapsed nt acc =
        (acc ++ (List.range n).map
            (fun k : ℕ => frameToStore latest adapter
              (nt + (k : ℚ) * RECORD_INTERVAL_MS)),
         nt + (n : ℚ) * RECORD_INTERVAL_MS) := by
  induction n with
  | zero =>
    intro latest adapter elapsed nt acc hn
    have hlt : elapsed < nt := by
      by_contra hge
      have := emitCount_pos elapsed nt (not_lt.mp hge)
      omega
    rw [catchUp_eq, if_neg (not_le.mpr hlt)]
    simp
  | succ n ih =>
    intro latest adapter elapsed nt acc hn
    have hle : nt ≤ elapsed := by
      by_contra hlt
      rw [emitCount, if_pos (not_le.mp hlt)] at hn
      omega
    have hrec : emitCount elapsed (nt + RECORD_INTERVAL_MS) = n := by
      have := emitCount_succ elapsed nt hle
      omega
    have hcomp : ((fun k : ℕ => frameToStore latest adapter
            (nt + (k : ℚ) * RECORD_INTERVAL_MS)) ∘ Nat.succ)
        = fun k : ℕ => frameToStore latest adapter
            (nt + RECORD_INTERVAL_MS + (k : ℚ) * RECORD_INTERVAL_MS) := by
      funext k
      simp only [Function.comp_apply]
      congr 1
      push_cast
      ring
    have hlist : (List.range (n + 1)).map
          (fun k : ℕ => frameToStore latest adapter
            (nt + (k : ℚ) * RECORD_INTERVAL_MS))
        = frameToStore latest adapter nt
          :: (List.range n).map (fun k : ℕ => frameToStore latest adapter
            (nt + RECORD_INTERVAL_MS + (k : ℚ) * RECORD_INTERVAL_MS)) := by
      rw [List.range_succ_eq_map, List.map_cons, List.map_map, hcomp]
      congr 2
      push_cast
      ring
    rw [catchUp_eq, if_pos hle, ih latest adapter elapsed _ _ hrec, hlist]
    refine Prod.ext ?_ (by push_cast; ring)
    simp

theorem inferStep_fields (s : AppLoopState) (ready : Bool) :
    (inferStep s ready).adapter = s.adapter ∧
    (inferStep s ready).videoSet = s.videoSet ∧
    (inferStep s ready).isRunning = s.isRunning ∧
    (inferStep s ready).recording = s.recording ∧
    (inferStep s ready).recordingStartTime = s.recordingStartTime ∧
    (inferStep s ready).recordedFrames = s.recordedFrames ∧
    (inferStep s ready).nextRecordTick = s.nextRecordTick ∧
    (inferStep s ready).latestFrame = s.latestFrame ∧
    (inferStep s ready).firedFrames = s.firedFrames ∧
    (inferStep s ready).recordingUpdates = s.recordingUpdates ∧
    (inferStep s ready).errorsLogged = s.errorsLogged := by
  unfold inferStep
  split <;> exact ⟨rfl, rfl, rfl, rfl, rfl, rfl, rfl, rfl, rfl, rfl, rfl⟩

theorem recordStep_spec (s : AppLoopState) (now : ℚ) (hrec : s.recording = true) :
    (recordStep s now).recordedFrames
      = s.recordedFrames
        ++ (List.range (emitCount (now - s.recordingStartTime) s.nextRecordTick)).map
            (fun k : ℕ => frameToStore s.latestFrame s.adapter
              (s.nextRecordTick + (k : ℚ) * RECORD_INTERVAL_MS)) ∧
    (recordStep s now).nextRecordTick
      = s.nextRecordTick
        + (emitCount (now - s.recordingStartTime) s.nextRecordTick : ℚ)
          * RECORD_INTERVAL_MS ∧
    (recordStep s now).latestFrame = s.latestFrame ∧
    (recordStep s now).recording = true ∧
    (recordStep s now).recordingStartTime = s.recordingStartTime ∧
    (recordStep s now).isRunning = s.isRunning ∧
    (recordStep s now).adapter = s.adapter ∧
    (recordStep s now).isInferring = s.isInferring ∧
    (recordStep s now).outstanding = s.outstanding := by
  unfold recordStep
  rw [if_pos hrec]
  dsimp only
  rw [catchUp_closed (emitCount (now - s.recordingStartTime) s.nextRecordTick)
        s.latestFrame s.adapter (now - s.recordingStartTime) s.nextRecordTick
        s.recordedFrames rfl]
  exact ⟨rfl, rfl, rfl, hrec, rfl, rfl, rfl, rfl, rfl⟩

theorem recordStep_not_rec (s : AppLoopState) (now : ℚ) (hrec : s.recording = false) :
    recordStep s now = s := by
  unfold recordStep
  rw [if_neg (by rw [hrec]; exact Bool.false_ne_true)]

/-- The recording-grid invariant: the next deadline sits at the end of the
grid laid down so far, and the recorded `t_ms` values are exactly the grid
`0, INTERVAL, 2·INTERVAL, …`. -/
def GridOK (s : AppLoopState) : Prop :=
  s.nextRecordTick = (s.recordedFrames.length : ℚ) * RECORD_INTERVAL_MS ∧
  s.recordedFrames.map StandardPoseFrame.t_ms
    = (List.range s.recordedFrames.length).map
        (fun k : ℕ => (k : ℚ) * RECORD_INTERVAL_MS)

theorem gridOK_recordStep (s : AppLoopState) (now : ℚ) (h : GridOK s) :
    GridOK (recordStep s now) := by
  by_cases hrec : s.recording = true
  · obtain ⟨hf, hnt, _⟩ := recordStep_spec s now hrec
    obtain ⟨h1, h2⟩ := h
    constructor
    · rw [hnt, hf, h1]
      simp only [List.length_append, List.length_map, List.length_range]
      push_cast
      ring
    · rw [hf]
      set c := emitCount (now - s.recordingStartTime) s.nextRecordTick with hc
      set m := s.recordedFrames.length with hm
      have hlen : (s.recordedFrames
          ++ (List.range c).map (fun k : ℕ => frameToStore s.latestFrame s.adapter
              (s.nextRecordTick + (k : ℚ) * RECORD_INTERVAL_MS))).length = m + c := by
        simp [← hm]
      rw [hlen, List.map_append, List.map_map, h2, List.range_add, List.map_append,
          List.map_map]
      congr 1
      congr 1
      funext k
      simp only [Function.comp_apply, frameToStore_t_ms, h1]
      push_cast
      ring
  · rw [recordStep_not_rec s now (by revert hrec; cases s.recording <;> simp)]
    exact h

theorem gridOK_step (s : AppLoopState) (e : ALEvent)
    (hne : e ≠ ALEvent.stopRecording) (h : GridOK s) : GridOK (step s e) := by
  cases e with
  | tick now ready =>
    show GridOK (loop s now ready)
    unfold loop
    split
    · exact h
    · apply gridOK_recordStep
      obtain ⟨_, _, _, _, _, hf, hnt, _⟩ := inferStep_fields s ready
      exact ⟨by rw [hnt, hf]; exact h.1, by rw [hf]; exact h.2⟩
  | completeOk f => exact h
  | completeErr => exact h
  | startRecording now =>
    constructor <;> simp [step, startRecording, GridOK]
  | stopRecording => exact absurd rfl hne
  | setAdapter a => exact h
  | setComponents => exact h
  | start =>
    show GridOK (start s)
    unfold start
    split <;> exact h
  | stop => exact h

theorem gridOK_run (s : AppLoopState) (es : List ALEvent)
    (hes : ∀ e ∈ es, e ≠ ALEvent.stopRecording) (h : GridOK s) :
    GridOK (run s es) := by
  induction es generalizing s with
  | nil => exact h
  | cons e es ih =>
    exact ih (step s e) (fun e' he' => hes e' (List.mem_cons_of_mem _ he'))
      (gridOK_step s e (hes e (List.mem_cons_self _ _)) h)

theorem grid_sorted (n : ℕ) :
    ((List.range n).map (fun k : ℕ => (k : ℚ) * RECORD_INTERVAL_MS)).Sorted (· < ·) := by
  refine List.Pairwise.map _ ?_ (List.pairwise_lt_range n)
  intro a b hab
  exact mul_lt_mul_of_pos_right (by exact_mod_cast hab) interval_pos

end AppLoop

namespace AppLoop

/-- C1: for every recording session — `startRecording` at instant `now0`
followed by any sequence of events other than `startRecording` /
`stopRecording` (ticks at arbitrary instants, estimation completions or
failures, adapter swaps, start/stop of the loop) — the buffer returned by
`stopRecording` has `t_ms` values that are exactly the arithmetic sequence
`0, INTERVAL, 2·INTERVAL, …` (`INTERVAL = RECORD_INTERVAL_MS = 1000/24`),
sorted strictly ascending, regardless of when ticks fire or when
estimations complete. -/
theorem recording_grid_exact (s0 : AppLoopState) (now0 : ℚ) (es : List ALEvent)
    (hes : ∀ e ∈ es, (∀ q : ℚ, e ≠ ALEvent.startRecording q) ∧
      e ≠ ALEvent.stopRecording) :
    ((stopRecording (run (step s0 (ALEvent.startRecording now0)) es)).1.map
        StandardPoseFrame.t_ms
      = (List.range
          (stopRecording (run (step s0 (ALEvent.startRecording now0)) es)).1.length).map
          (fun k : ℕ => (k : ℚ) * RECORD_INTERVAL_MS)) ∧
    ((stopRecording (run (step s0 (ALEvent.startRecording now0)) es)).1.map
        StandardPoseFrame.t_ms).Sorted (· < ·) := by
  have hinit : GridOK (step s0 (ALEvent.startRecording now0)) := by
    constructor <;> simp [step, startRecording, GridOK]
  have hrun := gridOK_run _ es (fun e he => (hes e he).2) hinit
  have h1 : (stopRecording (run (step s0 (ALEvent.startRecording now0)) es)).1.map
      StandardPoseFrame.t_ms
      = (List.range
          (stopRecording (run (step s0 (ALEvent.startRecording now0)) es)).1.length).map
          (fun k : ℕ => (k : ℚ) * RECORD_INTERVAL_MS) := hrun.2
  refine ⟨h1, ?_⟩
  rw [h1]
  exact grid_sorted _

/-- Witness for C1: a concrete session on a fresh `AppLoop` —
`startRecording` at `0`, then the loop is started, three ticks fire at
jittered instants `37.5`, `1025/6` and `200`, and an estimation failure is
reported in between. -/
theorem recording_grid_exact_witness :
    (∀ e ∈ ([ALEvent.start, ALEvent.tick (75/2) false, ALEvent.completeErr,
        ALEvent.tick (1025/6) false, ALEvent.tick 200 false] : List ALEvent),
      (∀ q : ℚ, e ≠ ALEvent.startRecording q) ∧ e ≠ ALEvent.stopRecording) ∧
    (((stopRecording (run (step initState (ALEvent.startRecording 0))
        [ALEvent.start, ALEvent.tick (75/2) false, ALEvent.completeErr,
         ALEvent.tick (1025/6) false, ALEvent.tick 200 false])).1.map
          StandardPoseFrame.t_ms
      = (List.range
          (stopRecording (run (step initState (ALEvent.startRecording 0))
            [ALEvent.start, ALEvent.tick (75/2) false, ALEvent.completeErr,
             ALEvent.tick (1025/6) false, ALEvent.tick 200 false])).1.length).map
          (fun k : ℕ => (k : ℚ) * RECORD_INTERVAL_MS)) ∧
    ((stopRecording (run (step initState (ALEvent.startRecording 0))
        [ALEvent.start, ALEvent.tick (75/2) false, ALEvent.completeErr,
         ALEvent.tick (1025/6) false, ALEvent.tick 200 false])).1.map
        StandardPoseFrame.t_ms).Sorted (· < ·)) := by
  have hes : ∀ e ∈ ([ALEvent.start, ALEvent.tick (75/2) false, ALEvent.completeErr,
      ALEvent.tick (1025/6) false, ALEvent.tick 200 false] : List ALEvent),
      (∀ q : ℚ, e ≠ ALEvent.startRecording q) ∧ e ≠ ALEvent.stopRecording := by
    intro e he
    fin_cases he <;> exact ⟨fun q => by simp, by simp⟩
  exact ⟨hes, recording_grid_exact initState 0 _ hes⟩

end AppLoop

namespace AppLoop

theorem recordStep_infer_fields (s : AppLoopState) (now : ℚ) :
    (recordStep s now).isInferring = s.isInferring ∧
    (recordStep s now).outstanding = s.outstanding ∧
    (recordStep s now).isRunning = s.isRunning := by
  unfold recordStep
  split <;> exact ⟨rfl, rfl, rfl⟩

/-- The estimation-slot protocol invariant: the ghost in-flight counter
matches the `isInferring` flag. -/
def OneFlight (s : AppLoopState) : Prop :=
  s.outstanding = if s.isInferring then 1 else 0

theorem oneFlight_inferStep (s : AppLoopState) (ready : Bool) (h : OneFlight s) :
    OneFlight (inferStep s ready) := by
  unfold OneFlight at h ⊢
  unfold inferStep
  split
  · next hcond =>
    have hinf : s.isInferring = false := by
      revert hcond
      cases s.isInferring <;> simp
    rw [hinf, if_neg (by exact Bool.false_ne_true)] at h
    show s.outstanding + 1 = if true = true then 1 else 0
    rw [h]
    rfl
  · exact h

theorem oneFlight_step (s : AppLoopState) (e : ALEvent)
    (h : OneFlight s) (hen : enabled s e = true) : OneFlight (step s e) := by
  cases e with
  | tick now ready =>
    show OneFlight (loop s now ready)
    unfold loop
    split
    · exact h
    · have h1 := oneFlight_inferStep s ready h
      obtain ⟨hi, ho, _⟩ := recordStep_infer_fields (inferStep s ready) now
      unfold OneFlight at h1 ⊢
      rw [hi, ho]
      exact h1
  | completeOk f =>
    have hout : 1 ≤ s.outstanding := of_decide_eq_true hen
    have hinf : s.isInferring = true := by
      by_contra hne
      rw [OneFlight, if_neg hne] at h
      omega
    show OneFlight (completeOk s f)
    unfold OneFlight at h ⊢
    unfold completeOk
    rw [hinf, if_pos rfl] at h
    simp [h]
  | completeErr =>
    have hout : 1 ≤ s.outstanding := of_decide_eq_true hen
    have hinf : s.isInferring = true := by
      by_contra hne
      rw [OneFlight, if_neg hne] at h
      omega
    show OneFlight (completeErr s)
    unfold OneFlight at h ⊢
    unfold completeErr
    rw [hinf, if_pos rfl] at h
    simp [h]
  | startRecording now => exact h
  | stopRecording => exact h
  | setAdapter a => exact h
  | setComponents => exact h
  | start =>
    show OneFlight (start s)
    unfold start
    split <;> exact h
  | stop => exact h

theorem oneFlight_run (s : AppLoopState) (es : List ALEvent)
    (h : OneFlight s) (hen : traceEnabled s es = true) : OneFlight (run s es) := by
  induction es generalizing s with
  | nil => exact h
  | cons e es ih =>
    simp only [traceEnabled, Bool.and_eq_true] at hen
    exact ih (step s e) (oneFlight_step s e h hen.1) hen.2

/-- C4: at most one estimation call is outstanding at any instant.  Starting
from a fresh `AppLoop`, after any sequence of enabled events — in particular
ticks that fire while an estimation is still in flight, at arbitrary rates —
the ghost count of in-flight `estimate` calls never exceeds 1: a tick that
fires while `isInferring` never issues a second call. -/
theorem overlap_guard_at_most_one (es : List ALEvent)
    (h : traceEnabled initState es = true) :
    (run initState es).outstanding ≤ 1 := by
  have h0 : OneFlight initState := rfl
  have hrun := oneFlight_run initState es h0 h
  rw [OneFlight] at hrun
  rw [hrun]
  split <;> norm_num

/-- The MoveNet-style adapter used in concrete scenarios. -/
def adapterA : PoseAdapter :=
  { name := "MoveNet", mode := .movenet, supportsMultiplePeople := true,
    maxPeople := 6 }

/-- The Holistic-style adapter used in concrete scenarios. -/
def adapterB : PoseAdapter :=
  { name := "Holistic", mode := .holistic, supportsMultiplePeople := false,
    maxPeople := 1 }

/-- A sample estimation result used in concrete scenarios. -/
def sampleFrame : StandardPoseFrame :=
  { t_ms := 5, mode := .movenet, people := [] }

/-- Witness for C4: three ticks fire while the single estimation call issued
by the first tick is still unresolved; the in-flight count stays ≤ 1. -/
theorem overlap_guard_at_most_one_witness :
    traceEnabled initState
      [ALEvent.setComponents, ALEvent.setAdapter adapterA, ALEvent.start,
       ALEvent.tick 0 true, ALEvent.tick 10 true, ALEvent.tick 20 true,
       ALEvent.completeOk sampleFrame, ALEvent.tick 30 true] = true ∧
    (run initState
      [ALEvent.setComponents, ALEvent.setAdapter adapterA, ALEvent.start,
       ALEvent.tick 0 true, ALEvent.tick 10 true, ALEvent.tick 20 true,
       ALEvent.completeOk sampleFrame, ALEvent.tick 30 true]).outstanding ≤ 1 :=
  ⟨by decide, overlap_guard_at_most_one _ (by decide)⟩

end AppLoop

namespace AppLoop

/-- C5, evaluated on the code at the failing input: a call is issued to
`adapterA` by the tick at `0`; `setAdapter adapterB` then replaces the
estimation capability; when the stale call completes, the code does NOT
discard it — it overwrites the cached latest frame with the stale result and
fires the live-frame callback, because the loop tracks only the boolean
`isInferring` flag and no identity of the awaited call. -/
theorem stale_completion_merged :
    traceEnabled initState
      [ALEvent.setComponents, ALEvent.setAdapter adapterA, ALEvent.start,
       ALEvent.tick 0 true, ALEvent.setAdapter adapterB,
       ALEvent.completeOk sampleFrame] = true ∧
    (run initState
      [ALEvent.setComponents, ALEvent.setAdapter adapterA, ALEvent.start,
       ALEvent.tick 0 true, ALEvent.setAdapter adapterB,
       ALEvent.completeOk sampleFrame]).adapter = some adapterB ∧
    (run initState
      [ALEvent.setComponents, ALEvent.setAdapter adapterA, ALEvent.start,
       ALEvent.tick 0 true, ALEvent.setAdapter adapterB,
       ALEvent.completeOk sampleFrame]).latestFrame = some sampleFrame ∧
    (run initState
      [ALEvent.setComponents, ALEvent.setAdapter adapterA, ALEvent.start,
       ALEvent.tick 0 true, ALEvent.setAdapter adapterB,
       ALEvent.completeOk sampleFrame]).firedFrames = [sampleFrame] := by
  decide

/-- C7: when an estimation call fails, the error is logged
(`errorsLogged` increments), the slot returns to `Idle`
(`isInferring = false`), the cached latest frame, the recording sub-state
and the running flag are all unchanged, no live-frame callback fires, and
the next tick issues a fresh estimation call. -/
theorem estimation_failure_recovery (s : AppLoopState) (now : ℚ)
    (hrun : s.isRunning = true) (had : s.adapter.isSome = true)
    (hv : s.videoSet = true) :
    (step s ALEvent.completeErr).errorsLogged = s.errorsLogged + 1 ∧
    (step s ALEvent.completeErr).isInferring = false ∧
    (step s ALEvent.completeErr).latestFrame = s.latestFrame ∧
    (step s ALEvent.completeErr).recording = s.recording ∧
    (step s ALEvent.completeErr).recordedFrames = s.recordedFrames ∧
    (step s ALEvent.completeErr).nextRecordTick = s.nextRecordTick ∧
    (step s ALEvent.completeErr).recordingStartTime = s.recordingStartTime ∧
    (step s ALEvent.completeErr).isRunning = true ∧
    (step s ALEvent.completeErr).firedFrames = s.firedFrames ∧
    (loop (step s ALEvent.completeErr) now true).isInferring = true ∧
    (loop (step s ALEvent.completeErr) now true).outstanding
      = (step s ALEvent.completeErr).outstanding + 1 := by
  have hcond : ((completeErr s).adapter.isSome && (completeErr s).videoSet && true
      && !(completeErr s).isInferring) = true := by
    show (s.adapter.isSome && s.videoSet && true && !false) = true
    rw [had, hv]
    rfl
  have hnr : ¬((completeErr s).isRunning = false) := by
    show ¬(s.isRunning = false)
    rw [hrun]
    simp
  have hloop : loop (step s ALEvent.completeErr) now true
      = recordStep (inferStep (completeErr s) true) now := by
    show loop (completeErr s) now true = _
    unfold loop
    rw [if_neg hnr]
  have hinfer : (inferStep (completeErr s) true).isInferring = true ∧
      (inferStep (completeErr s) true).outstanding = (completeErr s).outstanding + 1 := by
    unfold inferStep
    rw [if_pos hcond]
    exact ⟨rfl, rfl⟩
  obtain ⟨hri, hro, _⟩ := recordStep_infer_fields (inferStep (completeErr s) true) now
  refine ⟨rfl, rfl, rfl, rfl, rfl, rfl, rfl, hrun, rfl, ?_, ?_⟩
  · rw [hloop, hri, hinfer.1]
  · rw [hloop, hro, hinfer.2]
    rfl

/-- The state used to witness C7: running loop, installed adapter, ready
video, one estimation call in flight. -/
def c7State : AppLoopState :=
  { adapter := some adapterA, videoSet := true, isRunning := true,
    isInferring := true, outstanding := 1, latestFrame := some sampleFrame }

/-- Witness for C7 at `c7State`, with the next tick firing at instant `10`. -/
theorem estimation_failure_recovery_witness :
    c7State.isRunning = true ∧ c7State.adapter.isSome = true ∧
    c7State.videoSet = true ∧
    ((step c7State ALEvent.completeErr).errorsLogged = c7State.errorsLogged + 1 ∧
     (step c7State ALEvent.completeErr).isInferring = false ∧
     (step c7State ALEvent.completeErr).latestFrame = c7State.latestFrame ∧
     (step c7State ALEvent.completeErr).recording = c7State.recording ∧
     (step c7State ALEvent.completeErr).recordedFrames = c7State.recordedFrames ∧
     (step c7State ALEvent.completeErr).nextRecordTick = c7State.nextRecordTick ∧
     (step c7State ALEvent.completeErr).recordingStartTime
       = c7State.recordingStartTime ∧
     (step c7State ALEvent.completeErr).isRunning = true ∧
     (step c7State ALEvent.completeErr).firedFrames = c7State.firedFrames ∧
     (loop (step c7State ALEvent.completeErr) 10 true).isInferring = true ∧
     (loop (step c7State ALEvent.completeErr) 10 true).outstanding
       = (step c7State ALEvent.completeErr).outstanding + 1) :=
  ⟨rfl, rfl, rfl, estimation_failure_recovery c7State 10 rfl rfl rfl⟩

end AppLoop

namespace AppLoop

theorem emitCount_int (e : ℚ) (m : ℤ)
    (hm : (m : ℚ) * RECORD_INTERVAL_MS ≤ e) :
    (emitCount e ((m : ℚ) * RECORD_INTERVAL_MS) : ℤ)
      = ⌊e / RECORD_INTERVAL_MS⌋ + 1 - m := by
  have hI := interval_pos
  have hdiv : (e - (m : ℚ) * RECORD_INTERVAL_MS) / RECORD_INTERVAL_MS
      = e / RECORD_INTERVAL_MS - (m : ℚ) := by
    rw [sub_div, mul_div_assoc, div_self hI.ne', mul_one]
  have hfl : ⌊(e - (m : ℚ) * RECORD_INTERVAL_MS) / RECORD_INTERVAL_MS⌋
      = ⌊e / RECORD_INTERVAL_MS⌋ - m := by
    rw [hdiv, Int.floor_sub_int]
  have hge : m ≤ ⌊e / RECORD_INTERVAL_MS⌋ := by
    rw [Int.le_floor, le_div_iff hI]
    exact hm
  rw [emitCount, if_neg (not_lt.mpr hm), hfl]
  omega

theorem floor_add_bounds (a b : ℚ) :
    ⌊a⌋ + ⌊b⌋ ≤ ⌊a + b⌋ ∧ ⌊a + b⌋ ≤ ⌊a⌋ + ⌊b⌋ + 1 := by
  constructor
  · rw [Int.le_floor]
    push_cast
    exact add_le_add (Int.floor_le a) (Int.floor_le b)
  · have h1 := Int.lt_floor_add_one a
    have h2 := Int.lt_floor_add_one b
    have h3 : a + b < ((⌊a⌋ + ⌊b⌋ + 2 : ℤ) : ℚ) := by push_cast; linarith
    have := Int.floor_lt.mpr h3
    omega

/-- A recording tick of the running loop, described in closed form. -/
theorem loop_rec_spec (s : AppLoopState) (now : ℚ) (ready : Bool)
    (hrun : s.isRunning = true) (hrec : s.recording = true) :
    (loop s now ready).recordedFrames
      = s.recordedFrames
        ++ (List.range (emitCount (now - s.recordingStartTime) s.nextRecordTick)).map
            (fun k : ℕ => frameToStore s.latestFrame s.adapter
              (s.nextRecordTick + (k : ℚ) * RECORD_INTERVAL_MS)) ∧
    (loop s now ready).nextRecordTick
      = s.nextRecordTick
        + (emitCount (now - s.recordingStartTime) s.nextRecordTick : ℚ)
          * RECORD_INTERVAL_MS ∧
    (loop s now ready).latestFrame = s.latestFrame ∧
    (loop s now ready).recording = true ∧
    (loop s now ready).recordingStartTime = s.recordingStartTime ∧
    (loop s now ready).isRunning = true ∧
    (loop s now ready).adapter = s.adapter := by
  have hL : loop s now ready = recordStep (inferStep s ready) now := by
    unfold loop
    rw [if_neg (by rw [hrun]; simp)]
  obtain ⟨ha, hvs, hir, hrc, hst, hrf, hnt, hlf, _, _, _⟩ := inferStep_fields s ready
  obtain ⟨f1, f2, f3, f4, f5, f6, f7, _, _⟩ :=
    recordStep_spec (inferStep s ready) now (by rw [hrc]; exact hrec)
  rw [hL]
  refine ⟨?_, ?_, ?_, f4, ?_, ?_, ?_⟩
  · rw [f1, ha, hst, hrf, hnt, hlf]
  · rw [f2, hst, hnt]
  · rw [f3, hlf]
  · rw [f5, hst]
  · rw [f6, hir, hrun]
  · rw [f7, ha]

theorem grid_sorted_shift (c : ℕ) (a : ℚ) :
    ((List.range c).map
      (fun k : ℕ => a + (k : ℚ) * RECORD_INTERVAL_MS)).Sorted (· < ·) := by
  refine List.Pairwise.map _ ?_ (List.pairwise_lt_range c)
  intro x y hxy
  have : (x : ℚ) * RECORD_INTERVAL_MS < (y : ℚ) * RECORD_INTERVAL_MS :=
    mul_lt_mul_of_pos_right (by exact_mod_cast hxy) interval_pos
  linarith

end AppLoop

namespace AppLoop

/-- C2 amended: for two consecutive recording ticks of the running loop at
instants `now1` (whose pass reaches the pending deadline) and `now2` with
gap `now2 - now1 ≥ 3·INTERVAL`, the second catch-up pass emits exactly
`⌊elapsed₂/INTERVAL⌋ - ⌊elapsed₁/INTERVAL⌋` samples — which is
`⌊gap/INTERVAL⌋` or `⌊gap/INTERVAL⌋ + 1` depending on where the first
tick's elapsed time sits inside its grid cell, not always exactly
`⌊gap/INTERVAL⌋` — and all emitted samples are derived from the same cached
latest frame (sample-and-hold, no per-sample re-estimation), with strictly
increasing `t_ms` values. -/
theorem catchup_pass_count_amended (s : AppLoopState) (now1 now2 : ℚ)
    (r1 r2 : Bool) (hrun : s.isRunning = true) (hrec : s.recording = true)
    (hgrid : s.nextRecordTick
      = (s.recordedFrames.length : ℚ) * RECORD_INTERVAL_MS)
    (h1 : s.nextRecordTick ≤ now1 - s.recordingStartTime)
    (hgap : 3 * RECORD_INTERVAL_MS ≤ now2 - now1) :
    ∃ c : ℕ,
      (loop (loop s now1 r1) now2 r2).recordedFrames
        = (loop s now1 r1).recordedFrames
          ++ (List.range c).map
              (fun k : ℕ => frameToStore s.latestFrame s.adapter
                ((loop s now1 r1).nextRecordTick
                  + (k : ℚ) * RECORD_INTERVAL_MS)) ∧
      (c : ℤ) = ⌊(now2 - s.recordingStartTime) / RECORD_INTERVAL_MS⌋
        - ⌊(now1 - s.recordingStartTime) / RECORD_INTERVAL_MS⌋ ∧
      ⌊(now2 - now1) / RECORD_INTERVAL_MS⌋ ≤ (c : ℤ) ∧
      (c : ℤ) ≤ ⌊(now2 - now1) / RECORD_INTERVAL_MS⌋ + 1 ∧
      (((loop (loop s now1 r1) now2 r2).recordedFrames.drop
          (loop s now1 r1).recordedFrames.length).map
            StandardPoseFrame.t_ms).Sorted (· < ·) := by
  have hI := interval_pos
  obtain ⟨A1, A2, A3, A4, A5, A6, A7⟩ := loop_rec_spec s now1 r1 hrun hrec
  have hgrid' : s.nextRecordTick
      = ((s.recordedFrames.length : ℤ) : ℚ) * RECORD_INTERVAL_MS := by
    rw [hgrid]
    push_cast
    ring
  have hc1 : ((emitCount (now1 - s.recordingStartTime) s.nextRecordTick : ℕ) : ℤ)
      = ⌊(now1 - s.recordingStartTime) / RECORD_INTERVAL_MS⌋ + 1
        - (s.recordedFrames.length : ℤ) := by
    rw [hgrid']
    exact emitCount_int _ _ (by rw [← hgrid']; exact h1)
  have hnt1 : (loop s now1 r1).nextRecordTick
      = ((⌊(now1 - s.recordingStartTime) / RECORD_INTERVAL_MS⌋ + 1 : ℤ) : ℚ)
        * RECORD_INTERVAL_MS := by
    have hq : ((emitCount (now1 - s.recordingStartTime) s.nextRecordTick : ℕ) : ℚ)
        = (⌊(now1 - s.recordingStartTime) / RECORD_INTERVAL_MS⌋ : ℚ) + 1
          - (s.recordedFrames.length : ℚ) := by
      exact_mod_cast hc1
    rw [A2, hq, hgrid']
    push_cast
    ring
  have hF1 : ((⌊(now1 - s.recordingStartTime) / RECORD_INTERVAL_MS⌋ : ℤ) : ℚ)
      * RECORD_INTERVAL_MS ≤ now1 - s.recordingStartTime :=
    (le_div_iff hI).mp (Int.floor_le _)
  have hm2 : ((⌊(now1 - s.recordingStartTime) / RECORD_INTERVAL_MS⌋ + 1 : ℤ) : ℚ)
      * RECORD_INTERVAL_MS ≤ now2 - s.recordingStartTime := by
    have hx : ((⌊(now1 - s.recordingStartTime) / RECORD_INTERVAL_MS⌋ + 1 : ℤ) : ℚ)
        * RECORD_INTERVAL_MS
        = ((⌊(now1 - s.recordingStartTime) / RECORD_INTERVAL_MS⌋ : ℤ) : ℚ)
          * RECORD_INTERVAL_MS + RECORD_INTERVAL_MS := by
      push_cast
      ring
    rw [hx]
    linarith
  have hc2 : ((emitCount (now2 - s.recordingStartTime)
        (loop s now1 r1).nextRecordTick : ℕ) : ℤ)
      = ⌊(now2 - s.recordingStartTime) / RECORD_INTERVAL_MS⌋
        - ⌊(now1 - s.recordingStartTime) / RECORD_INTERVAL_MS⌋ := by
    rw [hnt1, emitCount_int _ _ hm2]
    ring
  obtain ⟨B1, B2, B3, B4, B5, B6, B7⟩ :=
    loop_rec_spec (loop s now1 r1) now2 r2 A6 A4
  rw [A5, A3, A7] at B1
  have hsplit : (now2 - s.recordingStartTime) / RECORD_INTERVAL_MS
      = (now1 - s.recordingStartTime) / RECORD_INTERVAL_MS
        + (now2 - now1) / RECORD_INTERVAL_MS := by
    rw [← add_div]
    congr 1
    ring
  obtain ⟨hb1, hb2⟩ := floor_add_bounds
    ((now1 - s.recordingStartTime) / RECORD_INTERVAL_MS)
    ((now2 - now1) / RECORD_INTERVAL_MS)
  rw [← hsplit] at hb1 hb2
  refine ⟨emitCount (now2 - s.recordingStartTime) (loop s now1 r1).nextRecordTick,
    B1, hc2, by omega, by omega, ?_⟩
  rw [B1, List.drop_left, List.map_map]
  have hcomp : (StandardPoseFrame.t_ms ∘ fun k : ℕ =>
      frameToStore s.latestFrame s.adapter
        ((loop s now1 r1).nextRecordTick + (k : ℚ) * RECORD_INTERVAL_MS))
      = fun k : ℕ => (loop s now1 r1).nextRecordTick
          + (k : ℚ) * RECORD_INTERVAL_MS := by
    funext k
    simp [Function.comp_apply, frameToStore_t_ms]
  rw [hcomp]
  exact grid_sorted_shift _ _

end AppLoop

namespace AppLoop

/-- A running, recording `AppLoop` state right after `startRecording` at
instant `0` (no frames yet, deadline at `0`). -/
def c2State : AppLoopState := { isRunning := true, recording := true }

/-- Counterexample to C2 as stated: the recording tick at `1025/6` follows
the tick at `75/2`, an elapsed-time gap of `400/3 ≥ 3·INTERVAL`, yet its
catch-up pass emits `5 - 1 = 4` samples while `⌊gap/INTERVAL⌋ = 3`: the
per-pass count is not `⌊gap/INTERVAL⌋` when the previous tick landed inside
a grid cell. -/
theorem catchup_floor_count_counterexample :
    3 * RECORD_INTERVAL_MS ≤ (1025 / 6 : ℚ) - 75 / 2 ∧
    c2State.recording = true ∧ c2State.isRunning = true ∧
    ⌊((1025 / 6 : ℚ) - 75 / 2) / RECORD_INTERVAL_MS⌋ = 3 ∧
    (loop c2State (75 / 2) false).recordedFrames.length = 1 ∧
    (loop (loop c2State (75 / 2) false) (1025 / 6) false).recordedFrames.length = 5 ∧
    ((loop (loop c2State (75 / 2) false) (1025 / 6) false).recordedFrames.length : ℤ)
        - ((loop c2State (75 / 2) false).recordedFrames.length : ℤ)
      ≠ ⌊((1025 / 6 : ℚ) - 75 / 2) / RECORD_INTERVAL_MS⌋ := by
  have hI : RECORD_INTERVAL_MS = 125 / 3 := by norm_num [RECORD_INTERVAL_MS]
  have hgap : 3 * RECORD_INTERVAL_MS ≤ (1025 / 6 : ℚ) - 75 / 2 := by
    rw [hI]
    norm_num
  have hfloor : ⌊((1025 / 6 : ℚ) - 75 / 2) / RECORD_INTERVAL_MS⌋ = 3 := by
    rw [hI, show ((1025 / 6 : ℚ) - 75 / 2) / (125 / 3 : ℚ) = 16 / 5 by norm_num,
        Int.floor_eq_iff]
    constructor <;> norm_num
  obtain ⟨A1, A2, A3, A4, A5, A6, A7⟩ := loop_rec_spec c2State (75 / 2) false rfl rfl
  have hc1 : emitCount ((75 : ℚ) / 2 - c2State.recordingStartTime)
      c2State.nextRecordTick = 1 := by
    rw [show (75 : ℚ) / 2 - c2State.recordingStartTime = 75 / 2 by
          norm_num [c2State],
        show c2State.nextRecordTick = 0 from rfl,
        emitCount, if_neg (by norm_num)]
    rw [show ((75 : ℚ) / 2 - 0) / RECORD_INTERVAL_MS = 9 / 10 by rw [hI]; norm_num,
        show ⌊(9 / 10 : ℚ)⌋ = 0 by rw [Int.floor_eq_iff]; constructor <;> norm_num]
    rfl
  have hlen1 : (loop c2State (75 / 2) false).recordedFrames.length = 1 := by
    rw [A1, hc1]
    simp [c2State]
  have hnt1 : (loop c2State (75 / 2) false).nextRecordTick = 125 / 3 := by
    rw [A2, hc1, hI]
    norm_num [c2State]
  obtain ⟨B1, B2, B3, B4, B5, B6, B7⟩ :=
    loop_rec_spec (loop c2State (75 / 2) false) (1025 / 6) false A6 A4
  have hc2 : emitCount ((1025 : ℚ) / 6
        - (loop c2State (75 / 2) false).recordingStartTime)
      (loop c2State (75 / 2) false).nextRecordTick = 4 := by
    rw [A5, hnt1,
        show (1025 : ℚ) / 6 - c2State.recordingStartTime = 1025 / 6 by
          norm_num [c2State],
        emitCount, if_neg (by norm_num)]
    rw [show ((1025 : ℚ) / 6 - 125 / 3) / RECORD_INTERVAL_MS = 31 / 10 by
          rw [hI]; norm_num,
        show ⌊(31 / 10 : ℚ)⌋ = 3 by rw [Int.floor_eq_iff]; constructor <;> norm_num]
    rfl
  have hlen2 : (loop (loop c2State (75 / 2) false) (1025 / 6) false).recordedFrames.length
      = 5 := by
    rw [B1, hc2]
    simp [hlen1]
  refine ⟨hgap, rfl, rfl, hfloor, hlen1, hlen2, ?_⟩
  rw [hlen1, hlen2, hfloor]
  decide

/-- Witness for the amended C2 at the concrete two-tick scenario of the
counterexample. -/
theorem catchup_pass_count_amended_witness :
    c2State.isRunning = true ∧ c2State.recording = true ∧
    c2State.nextRecordTick
      = (c2State.recordedFrames.length : ℚ) * RECORD_INTERVAL_MS ∧
    c2State.nextRecordTick ≤ 75 / 2 - c2State.recordingStartTime ∧
    3 * RECORD_INTERVAL_MS ≤ (1025 / 6 : ℚ) - 75 / 2 ∧
    (∃ c : ℕ,
      (loop (loop c2State (75 / 2) false) (1025 / 6) false).recordedFrames
        = (loop c2State (75 / 2) false).recordedFrames
          ++ (List.range c).map
              (fun k : ℕ => frameToStore c2State.latestFrame c2State.adapter
                ((loop c2State (75 / 2) false).nextRecordTick
                  + (k : ℚ) * RECORD_INTERVAL_MS)) ∧
      (c : ℤ) = ⌊((1025 / 6 : ℚ) - c2State.recordingStartTime) / RECORD_INTERVAL_MS⌋
        - ⌊((75 / 2 : ℚ) - c2State.recordingStartTime) / RECORD_INTERVAL_MS⌋ ∧
      ⌊((1025 / 6 : ℚ) - 75 / 2) / RECORD_INTERVAL_MS⌋ ≤ (c : ℤ) ∧
      (c : ℤ) ≤ ⌊((1025 / 6 : ℚ) - 75 / 2) / RECORD_INTERVAL_MS⌋ + 1 ∧
      (((loop (loop c2State (75 / 2) false) (1025 / 6) false).recordedFrames.drop
          (loop c2State (75 / 2) false).recordedFrames.length).map
            StandardPoseFrame.t_ms).Sorted (· < ·)) := by
  have hgrid : c2State.nextRecordTick
      = (c2State.recordedFrames.length : ℚ) * RECORD_INTERVAL_MS := by
    norm_num [c2State]
  have h1 : c2State.nextRecordTick ≤ 75 / 2 - c2State.recordingStartTime := by
    norm_num [c2State]
  have hgap : 3 * RECORD_INTERVAL_MS ≤ (1025 / 6 : ℚ) - 75 / 2 := by
    norm_num [RECORD_INTERVAL_MS]
  exact ⟨rfl, rfl, hgrid, h1, hgap,
    catchup_pass_count_amended c2State (75 / 2) (1025 / 6) false false
      rfl rfl hgrid h1 hgap⟩

end AppLoop

namespace PlaybackController

/-- A bare frame with a given timestamp, as in the spec's ≈24 fps example
buffer. -/
def exFrame (t : ℚ) : StandardPoseFrame :=
  { t_ms := t, mode := .holistic, people := [] }

/-- The example buffer `[{t:0,...},{t:41,...},{t:83,...}]`. -/
def exBuffer : List StandardPoseFrame := [exFrame 0, exFrame 41, exFrame 83]

/-- A freshly constructed `PlaybackController`. -/
def pbInit : PlaybackState := {}

/-- The controller after `load(exBuffer)`. -/
def exLoaded : PlaybackState := (load pbInit exBuffer).1

/-- C3: on a loaded frame sequence sorted ascending by `t_ms`, the playback
lookup returns the frame at the greatest index whose `t_ms ≤ t`, and no
frame when `t` precedes the first entry's `t_ms` (or the sequence is
empty); in particular, on the loaded buffer `[{t:0},{t:41},{t:83}]`,
`seek(50)` yields the frame at `41`, `seek(83)` the frame at `83`, and
`seek(1000)` clamps `currentTime` to the duration `83` and yields the frame
at `83`. -/
theorem playback_lookup_greatest_le (frames : List StandardPoseFrame) (t : ℚ)
    (hs : frames.Sorted byTms) :
    ((frames = [] → getFrameAt frames t = none) ∧
     (∀ h0 : 0 < frames.length, t < (frames.get ⟨0, h0⟩).t_ms →
        getFrameAt frames t = none) ∧
     (∀ j : ℕ, ∀ hj : j < frames.length, (frames.get ⟨j, hj⟩).t_ms ≤ t →
        (∀ k : ℕ, ∀ hk : k < frames.length, (frames.get ⟨k, hk⟩).t_ms ≤ t →
          k ≤ j) →
        getFrameAt frames t = some (frames.get ⟨j, hj⟩))) ∧
    (seek exLoaded 50).2 = [PBEvent.frame (some (exFrame 41)) 50, PBEvent.time 50] ∧
    (seek exLoaded 83).2 = [PBEvent.frame (some (exFrame 83)) 83, PBEvent.time 83] ∧
    (seek exLoaded 1000).1.currentTime = 83 ∧
    (seek exLoaded 1000).2
      = [PBEvent.frame (some (exFrame 83)) 83, PBEvent.time 83] := by
  refine ⟨⟨?_, ?_, ?_⟩, by decide, by decide, by decide, by decide⟩
  · intro h
    subst h
    rfl
  · intro h0 hlt
    rcases getFrameAt_spec frames t hs with ⟨_, hnone, _⟩ | ⟨j, hj, _, hsome, hle2, _⟩
    · exact hnone
    · exfalso
      have h01 : (frames.get ⟨0, h0⟩).t_ms ≤ (frames.get ⟨j, hj⟩).t_ms := by
        rcases Nat.eq_zero_or_pos j with hz | hpos
        · subst hz
          exact le_refl _
        · exact List.pairwise_iff_get.mp hs ⟨0, h0⟩ ⟨j, hj⟩ hpos
      linarith
  · intro j hj hle hmax
    rcases getFrameAt_spec frames t hs with ⟨_, _, hall⟩ | ⟨j', hj', _, hsome, hle', hmax'⟩
    · exact absurd hle (not_le.mpr (hall j hj))
    · have hjj : j = j' := le_antisymm (hmax' j hj hle) (hmax j' hj' hle')
      subst hjj
      exact hsome

/-- Witness for C3 at the example buffer with query `t = 50`. -/
theorem playback_lookup_greatest_le_witness :
    exLoaded.frames.Sorted byTms ∧
    ((exLoaded.frames = [] → getFrameAt exLoaded.frames 50 = none) ∧
     (∀ h0 : 0 < exLoaded.frames.length,
        (50 : ℚ) < (exLoaded.frames.get ⟨0, h0⟩).t_ms →
        getFrameAt exLoaded.frames 50 = none) ∧
     (∀ j : ℕ, ∀ hj : j < exLoaded.frames.length,
        (exLoaded.frames.get ⟨j, hj⟩).t_ms ≤ 50 →
        (∀ k : ℕ, ∀ hk : k < exLoaded.frames.length,
          (exLoaded.frames.get ⟨k, hk⟩).t_ms ≤ 50 → k ≤ j) →
        getFrameAt exLoaded.frames 50 = some (exLoaded.frames.get ⟨j, hj⟩))) ∧
    (seek exLoaded 50).2 = [PBEvent.frame (some (exFrame 41)) 50, PBEvent.time 50] ∧
    (seek exLoaded 83).2 = [PBEvent.frame (some (exFrame 83)) 83, PBEvent.time 83] ∧
    (seek exLoaded 1000).1.currentTime = 83 ∧
    (seek exLoaded 1000).2
      = [PBEvent.frame (some (exFrame 83)) 83, PBEvent.time 83] :=
  ⟨by decide, playback_lookup_greatest_le exLoaded.frames 50 (by decide)⟩

/-- A second frame stamped `41`, distinguishable from `exFrame 41` by its
`mode`. -/
def dupFrame : StandardPoseFrame :=
  { t_ms := 41, mode := .movenet, people := [] }

/-- The example buffer with two frames sharing `t_ms = 41`. -/
def dupBuffer : List StandardPoseFrame :=
  [exFrame 0, exFrame 41, dupFrame, exFrame 83]

/-- C10: in a sorted sequence holding several frames with the same `t_ms`
(positions `i < j`), for every query time `t` at or after that value the
binary search lands at an index `≥ j` — it moves past equal keys and never
returns an earlier duplicate — and when `j` is the greatest index whose
`t_ms ≤ t`, the lookup returns exactly the duplicate at `j`. -/
theorem duplicate_tms_last_index (frames : List StandardPoseFrame) (t : ℚ)
    (i j : ℕ) (hs : frames.Sorted byTms) (hij : i < j) (hj : j < frames.length)
    (heq : (frames.get ⟨i, lt_trans hij hj⟩).t_ms = (frames.get ⟨j, hj⟩).t_ms)
    (ht : (frames.get ⟨j, hj⟩).t_ms ≤ t) :
    (j : Int) ≤ getFrameIdx frames t ∧
    ((∀ k : ℕ, ∀ hk : k < frames.length, (frames.get ⟨k, hk⟩).t_ms ≤ t →
        k ≤ j) →
      getFrameAt frames t = some (frames.get ⟨j, hj⟩)) := by
  rcases getFrameAt_spec frames t hs with ⟨_, _, hall⟩ | ⟨j', hj', hidx, hsome, hle', hmax'⟩
  · exact absurd ht (not_le.mpr (hall j hj))
  · constructor
    · rw [hidx]
      exact_mod_cast hmax' j hj ht
    · intro hmax
      have hjj : j = j' := le_antisymm (hmax' j hj ht) (hmax j' hj' hle')
      subst hjj
      exact hsome

/-- Witness for C10 at the duplicated buffer, `i = 1`, `j = 2`, `t = 50`. -/
theorem duplicate_tms_last_index_witness :
    dupBuffer.Sorted byTms ∧ 1 < 2 ∧ 2 < dupBuffer.length ∧
    (dupBuffer.get ⟨1, by decide⟩).t_ms = (dupBuffer.get ⟨2, by decide⟩).t_ms ∧
    (dupBuffer.get ⟨2, by decide⟩).t_ms ≤ 50 ∧
    (2 : Int) ≤ getFrameIdx dupBuffer 50 ∧
    ((∀ k : ℕ, ∀ hk : k < dupBuffer.length,
        (dupBuffer.get ⟨k, hk⟩).t_ms ≤ 50 → k ≤ 2) →
      getFrameAt dupBuffer 50 = some (dupBuffer.get ⟨2, by decide⟩)) :=
  ⟨by decide, by decide, by decide, by decide, by decide,
    duplicate_tms_last_index dupBuffer 50 1 2 (by decide) (by decide) (by decide)
      (by decide) (by decide)⟩

end PlaybackController

namespace PlaybackController

/-- C6 amended: on every advancing step while playing, `currentTime` grows
by the wall-clock delta since the last tick; if the result reaches
`duration` the controller clamps to `duration`, transitions to paused and
fires the end-of-playback notification, and then — in all cases, not only
below `duration` — performs a lookup and fires the frame and time
callbacks, rescheduling only while still playing. -/
theorem loop_advance_amended (s : PlaybackState) (now : ℚ) :
    (s.isPlaying = false → loop s now = (s, [], false)) ∧
    (s.isPlaying = true →
      (s.duration ≤ s.currentTime + (now - s.lastTick) →
        loop s now
          = ({ s with
                lastTick := now
                currentTime := s.duration
                isPlaying := false },
             [PBEvent.ended,
              PBEvent.frame (getFrameAt s.frames s.duration) s.duration,
              PBEvent.time s.duration], false)) ∧
      (s.currentTime + (now - s.lastTick) < s.duration →
        loop s now
          = ({ s with
                lastTick := now
                currentTime := s.currentTime + (now - s.lastTick) },
             [PBEvent.frame
                (getFrameAt s.frames (s.currentTime + (now - s.lastTick)))
                (s.currentTime + (now - s.lastTick)),
              PBEvent.time (s.currentTime + (now - s.lastTick))], true))) := by
  refine ⟨?_, ?_⟩
  · intro h
    unfold loop
    rw [if_pos h]
  · intro hp
    have hnp : ¬ (s.isPlaying = false) := by rw [hp]; simp
    constructor
    · intro hend
      unfold loop
      rw [if_neg hnp]
      dsimp only
      rw [if_pos hend]
      simp [pause]
    · intro hlt
      unfold loop
      rw [if_neg hnp]
      dsimp only
      rw [if_neg (not_le.mpr hlt), hp]

/-- A playing controller on the example buffer, 3 ms before the end, whose
last tick was at instant `100`. -/
def c6State : PlaybackState :=
  { frames := exBuffer, currentTime := 80, duration := 83, isPlaying := true,
    lastTick := 100 }

/-- Counterexample to C6 as stated: on the advancing step at `110` the
virtual clock passes `duration`, so the end notification fires — and the
code nevertheless also performs the lookup and fires the frame and time
callbacks in the same step, which the claim's "otherwise (and only
otherwise)" forbids. -/
theorem loop_end_fires_frame_counterexample :
    c6State.isPlaying = true ∧
    c6State.duration ≤ c6State.currentTime + ((110 : ℚ) - c6State.lastTick) ∧
    (loop c6State 110).2.1
      = [PBEvent.ended, PBEvent.frame (some (exFrame 83)) 83, PBEvent.time 83] ∧
    PBEvent.ended ∈ (loop c6State 110).2.1 ∧
    PBEvent.frame (some (exFrame 83)) 83 ∈ (loop c6State 110).2.1 ∧
    PBEvent.time (83 : ℚ) ∈ (loop c6State 110).2.1 := by
  have hcond : c6State.duration ≤ c6State.currentTime + ((110 : ℚ) - c6State.lastTick) := by
    show (83 : ℚ) ≤ 80 + (110 - 100)
    norm_num
  have hget : getFrameAt c6State.frames c6State.duration = some (exFrame 83) := by
    decide
  have hloop : (loop c6State 110).2.1
      = [PBEvent.ended, PBEvent.frame (some (exFrame 83)) 83, PBEvent.time 83] := by
    unfold loop
    rw [if_neg (by decide)]
    dsimp only
    rw [if_pos hcond]
    dsimp only
    rw [show (pause { c6State with lastTick := 110, currentTime := c6State.duration }).currentTime = c6State.duration from rfl,
        show (pause { c6State with lastTick := 110, currentTime := c6State.duration }).frames = c6State.frames from rfl,
        hget]
    rfl
  refine ⟨rfl, hcond, hloop, ?_, ?_, ?_⟩ <;> rw [hloop]
  · exact List.mem_cons_self _ _
  · exact List.mem_cons_of_mem _ (List.mem_cons_self _ _)
  · exact List.mem_cons_of_mem _ (List.mem_cons_of_mem _ (List.mem_cons_self _ _))

/-- C8: `play()` is a no-op when already playing (the driver is not
restarted); when not playing with `currentTime ≥ duration` it first seeks
to 0 (replay-from-start rather than rejecting) and only then captures the
wall-clock reference and starts the advancing driver; when not playing with
`currentTime < duration` it starts the driver from the current position
without seeking. -/
theorem play_semantics (s : PlaybackState) (now : ℚ) :
    (s.isPlaying = true → play s now = (s, [], false)) ∧
    (s.isPlaying = false → s.duration ≤ s.currentTime →
      play s now = ({ (seek s 0).1 with isPlaying := true, lastTick := now },
        (seek s 0).2, true)) ∧
    (s.isPlaying = false → s.currentTime < s.duration →
      play s now = ({ s with isPlaying := true, lastTick := now }, [], true)) := by
  refine ⟨?_, ?_, ?_⟩
  · intro h
    unfold play
    rw [if_pos h]
  · intro h hd
    unfold play
    rw [if_neg (by rw [h]; simp), if_pos hd]
  · intro h hd
    unfold play
    rw [if_neg (by rw [h]; simp), if_neg (not_le.mpr hd)]

/-- A paused controller on the example buffer that has reached its end. -/
def c8State : PlaybackState :=
  { frames := exBuffer, currentTime := 83, duration := 83 }

/-- Witness for C8: `play()` at instant `7` on the finished controller
seeks to 0 first, then starts the driver. -/
theorem play_semantics_witness :
    c8State.isPlaying = false ∧ c8State.duration ≤ c8State.currentTime ∧
    play c8State 7 = ({ (seek c8State 0).1 with isPlaying := true, lastTick := 7 },
      (seek c8State 0).2, true) :=
  ⟨rfl, by decide, (play_semantics c8State 7).2.1 rfl (by decide)⟩

/-- C9: loading an empty sequence yields `duration = 0`; thereafter (from
any state with empty frames, zero duration and zero `currentTime` — which
such a `load` produces) every `seek` and every `play` leaves `currentTime`
at 0 and the frames/duration empty, every lookup yields no frame, and all
operations are total in the model (no exception paths exist). -/
theorem empty_buffer_semantics (s : PlaybackState) (hf : s.frames = [])
    (hd : s.duration = 0) (hc : s.currentTime = 0) :
    (load pbInit []).1.frames = [] ∧ (load pbInit []).1.duration = 0 ∧
    (load pbInit []).1.currentTime = 0 ∧
    (∀ t : ℚ, (seek s t).1.currentTime = 0 ∧ (seek s t).1.frames = [] ∧
      (seek s t).1.duration = 0 ∧
      (seek s t).2 = [PBEvent.frame none 0, PBEvent.time 0]) ∧
    (∀ now : ℚ, (play s now).1.currentTime = 0 ∧ (play s now).1.frames = [] ∧
      (play s now).1.duration = 0) ∧
    (∀ t : ℚ, getFrameAt s.frames t = none) := by
  have hclamp : ∀ t : ℚ, max 0 (min t s.duration) = 0 := by
    intro t
    rw [hd]
    exact max_eq_left (min_le_right t 0)
  have hseek : ∀ t : ℚ, seek s t
      = ({ s with currentTime := 0 }, [PBEvent.frame none 0, PBEvent.time 0]) := by
    intro t
    unfold seek
    rw [hclamp t, hf]
    rfl
  refine ⟨by decide, by decide, by decide, ?_, ?_, ?_⟩
  · intro t
    rw [hseek t]
    exact ⟨rfl, hf, hd, rfl⟩
  · intro now
    cases hps : s.isPlaying
    · have hle : s.duration ≤ s.currentTime := by rw [hd, hc]
      unfold play
      rw [if_neg (by rw [hps]; simp), if_pos hle, hseek 0]
      exact ⟨rfl, hf, hd⟩
    · unfold play
      rw [if_pos hps]
      exact ⟨hc, hf, hd⟩
  · intro t
    rw [hf]
    rfl

/-- Witness for C9 at the loaded-empty controller, with `seek(5)`,
`play()` at instant `7` and a lookup at `3`. -/
theorem empty_buffer_semantics_witness :
    (load pbInit []).1.frames = [] ∧ (load pbInit []).1.duration = 0 ∧
    (load pbInit []).1.currentTime = 0 ∧
    (seek (load pbInit []).1 5).1.currentTime = 0 ∧
    (seek (load pbInit []).1 5).2 = [PBEvent.frame none 0, PBEvent.time 0] ∧
    (play (load pbInit []).1 7).1.currentTime = 0 ∧
    getFrameAt (load pbInit []).1.frames 3 = none := by
  have h := empty_buffer_semantics (load pbInit []).1 (by decide) (by decide)
    (by decide)
  exact ⟨h.1, h.2.1, h.2.2.1, (h.2.2.2.1 5).1, (h.2.2.2.1 5).2.2.2,
    (h.2.2.2.2.1 7).1, h.2.2.2.2.2 3⟩

end PlaybackController

namespace PlaybackController

/-- Witness for the amended C6 at the playing controller `c6State` with the
advancing step at instant `110`, which crosses the end of the recording. -/
theorem loop_advance_amended_witness :
    c6State.isPlaying = true ∧
    c6State.duration ≤ c6State.currentTime + ((110 : ℚ) - c6State.lastTick) ∧
    loop c6State 110
      = ({ c6State with
            lastTick := 110
            currentTime := c6State.duration
            isPlaying := false },
         [PBEvent.ended,
          PBEvent.frame (getFrameAt c6State.frames c6State.duration)
            c6State.duration,
          PBEvent.time c6State.duration], false) := by
  have h1 : c6State.isPlaying = true := rfl
  have h2 : c6State.duration ≤ c6State.currentTime + ((110 : ℚ) - c6State.lastTick) := by
    show (83 : ℚ) ≤ 80 + (110 - 100)
    norm_num
  exact ⟨h1, h2, ((loop_advance_amended c6State 110).2 h1).1 h2⟩

end PlaybackController
